import Mathlib

/-!
Verification of `leptos_dom/src/child.rs` (the `Child` value model and the
`IntoChild` conversion protocol), shallowly embedded in Lean.

Modelling choices, each traceable to the source:

* `Child::Fn` holds `Rc<RefCell<dyn FnMut() -> Child>>`: a shared,
  interior-mutable closure cell. We model the shared cell by an address
  (`Nat`) into an explicit heap of `ClosureCell`s; `Rc::clone` (from
  `derive(Clone)`) copies the address. Invoking a cell is the only
  operation that reads or writes the heap.

* A `FnMut` closure owns its captured state and (per the spec's concurrency
  model) mutates only that state. The observable behaviour of such a
  deterministic closure is a function of how many times it has been called,
  so a cell stores a behaviour `body : Nat -> SValue` (what the wrapped
  user function returns on its k-th call, as a source-level value still to
  be converted), the captured reactive context `cx`, and the mutable call
  counter `calls`.

* `SValue` is the universe of application-level source values fed to the
  `IntoChild` conversions that appear in the default (server) build of the
  file: a `Child` itself, `()`, an owned `String`, the `child_type!` macro
  types (borrowed strings, every integer width, both float widths, `char`,
  `bool` - the macro emits `Child::Text(self.to_string())`, so such a value
  is represented by the string its external `to_string` produces),
  `Option` of a convertible value, `Vec<Node>`, and a zero-argument
  callable returning a convertible value.

* Modelled from the spec: the platform node type `crate::Node` is declared
  outside this file (it is not under the sources given); per the spec it
  provides value equality and a canonical string serialization, and in the
  server build `nodes.iter().cloned().collect::<String>()` concatenates the
  nodes' serializations. We model it as a wrapper around that canonical
  string.

* `as_child_string`'s `while let Child::Fn(f) = value` loop is unbounded in
  the source; the embedding takes explicit fuel and returns `none` when the
  chain does not terminate within the fuel, `some` otherwise.

* `PartialEq::eq` receives `self` and `other` by reference. Its `Fn` arm is
  `std::ptr::eq(l0, r0)` where `l0 r0 : &Rc<...>`, i.e. it compares the
  addresses of the two `Rc` fields inside the compared `Child` values (the
  locations of the compared references), not the address of the shared
  closure allocation (`Rc::ptr_eq` would do that). The embedding therefore
  takes the two reference addresses as explicit parameters `pl pr`; the
  `Fn` arm compares them and ignores the closure addresses, all other arms
  ignore them. Two distinct `Child` values (for example a value and its
  clone) live at distinct addresses.
-/

namespace LeptosChild

/-- The opaque reactive context handle (`leptos_reactive::Scope`). The core
threads it through conversions and never inspects it. -/
structure Scope where
  id : Nat
deriving DecidableEq, Repr

/-- Modelled from the spec: the external platform node type `crate::Node`
(not among the given sources). It has value equality and a canonical string
serialization `str`; in the server build collecting cloned nodes into a
`String` concatenates these serializations. -/
structure Node where
  str : String
deriving DecidableEq, Repr

/-- The `Child` enum of `child.rs`: the five variants of renderable
content. `Fn` carries the address of its shared closure cell in the heap
(the `Rc<RefCell<dyn FnMut() -> Child>>` payload); cloning a `Child`
copies the address, sharing the cell. -/
inductive Child where
  | Null : Child
  | Text : String → Child
  | Fn : Nat → Child
  | Node : LeptosChild.Node → Child
  | Nodes : List LeptosChild.Node → Child
deriving DecidableEq, Repr

/-- Source-level values convertible by the `IntoChild` impls of `child.rs`
(default/server build). `prim s` stands for a value of one of the
`child_type!` macro types (`&String`, `&str`, the integer widths, `f32`,
`f64`, `char`, `bool`) whose external `to_string()` yields `s`; the macro
converts such a value to `Child::Text(self.to_string())`. `fn body` is a
zero-argument `FnMut` callable whose k-th call returns `body k`. -/
inductive SValue where
  | child : Child → SValue
  | unit : SValue
  | str : String → SValue
  | prim : String → SValue
  | opt : Option SValue → SValue
  | nodes : List LeptosChild.Node → SValue
  | fn : (Nat → SValue) → SValue

/-- One shared closure cell (`Rc<RefCell<dyn FnMut() -> Child>>`): the
wrapped user function's behaviour `body`, the captured reactive context
`cx`, and the mutable call counter `calls` (how often the cell has been
invoked; the `FnMut` state). The cell built by the blanket impl runs
`move || (self)().into_child(cx)` when invoked. -/
structure ClosureCell where
  body : Nat → SValue
  cx : Scope
  calls : Nat

/-- The heap of closure cells; a cell's address is its index, allocation
appends at the end. -/
abbrev Heap := List ClosureCell

/-- The `IntoChild` conversion protocol of `child.rs`, one match arm per
impl in the source:
`Child` is returned unchanged; `()` becomes `Null`; `String` becomes
`Text`; a `child_type!` value becomes `Text(self.to_string())`;
`Option` converts the inner value if present and is `Null` otherwise;
`Vec<Node>` becomes `Nodes`; a callable is wrapped: a fresh shared cell
`Rc::new(RefCell::new(move || (self)().into_child(cx)))` is allocated
(call counter 0, the function not yet invoked) and `Child::Fn` of its
address is returned. -/
def into_child : SValue → Scope → Heap → Child × Heap
  | .child c, _, h => (c, h)
  | .unit, _, h => (Child.Null, h)
  | .str s, _, h => (Child.Text s, h)
  | .prim s, _, h => (Child.Text s, h)
  | .opt (some v), cx, h => into_child v cx h
  | .opt none, _, h => (Child.Null, h)
  | .nodes ns, _, h => (Child.Nodes ns, h)
  | .fn body, cx, h => (Child.Fn h.length, h ++ [⟨body, cx, 0⟩])

/-- Invoking the shared closure cell at address `a`: `(f.borrow_mut())()`.
The cell's wrapped function returns `body calls`; the call advances the
`FnMut` state (the counter) by one, and the captured conversion
`into_child (body calls) cx` runs on the updated heap (it may allocate
further cells). A dangling address never arises from the conversion
protocol (`Rc` keeps every referenced cell alive); for totality it yields
`Null` and leaves the heap unchanged. -/
def invoke (h : Heap) (a : Nat) : Child × Heap :=
  match h.get? a with
  | some cell => into_child (cell.body cell.calls) cell.cx (h.set a ⟨cell.body, cell.cx, cell.calls + 1⟩)
  | none => (Child.Null, h)

/-- Serialization of the terminal (non-`Fn`) variants, the four data arms
of `Child::as_child_string`: `Null` gives the empty string, `Text(text)`
gives `text.to_string()`, `Node(node)` gives `node.to_string()`, and
`Nodes(nodes)` collects the cloned nodes into a string, concatenating
their serializations in order. (The `Fn` arm of the source never reaches
this function; it is given the empty string for totality.) -/
def terminal_string : Child → String
  | .Null => ""
  | .Text text => text
  | .Fn _ => ""
  | .Node node => node.str
  | .Nodes nodes => (nodes.map Node.str).foldl (fun r s => r ++ s) ""

/-- The loop of the `Fn` arm of `as_child_string`:
`let mut value = (f.borrow_mut())(); while let Child::Fn(f) = value { value = (f.borrow_mut())(); }`.
Starting from the cell at address `a`, invoke it once, and while the
result is again `Fn` invoke the new cell; return the first terminal value
together with the heap after all invocations. The source loop is
unbounded, so the embedding spends one unit of fuel per invocation and
returns `none` when the chain does not terminate within the fuel. -/
def resolve_chain : Nat → Nat → Heap → Option (Child × Heap)
  | 0, _, _ => none
  | fuel + 1, a, h =>
    match invoke h a with
    | (Child.Fn b, h1) => resolve_chain fuel b h1
    | (v, h1) => some (v, h1)

/-- `Child::as_child_string`: the four data variants serialize directly
(`terminal_string`); the `Fn` variant runs the invocation loop
(`resolve_chain`) and serializes the terminal value it produces (in the
source, `value.as_child_string()` on the now non-`Fn` `value`). Fuel
bounds the loop; `none` models the source looping forever. -/
def as_child_string (fuel : Nat) (c : Child) (h : Heap) : Option (String × Heap) :=
  match c with
  | Child.Fn a =>
    match resolve_chain fuel a h with
    | some (v, h1) => some (terminal_string v, h1)
    | none => none
  | c => some (terminal_string c, h)

/-- The discriminant of a `Child` value (`core::mem::discriminant`),
identifying its variant. -/
def discrim : Child → Nat
  | .Null => 0
  | .Text _ => 1
  | .Fn _ => 2
  | .Node _ => 3
  | .Nodes _ => 4

/-- `impl PartialEq for Child`. `l, r` are the compared values and
`pl, pr` the addresses at which the two compared references point to them
(`self` and `other` are references). `Text`, `Node` and `Nodes` compare
payloads; the `Fn` arm is `std::ptr::eq(l0, r0)` with
`l0 r0 : &Rc<RefCell<dyn FnMut() -> Child>>`, which compares the
addresses of the two `Rc` fields - determined by `pl` and `pr` - and not
the shared closure allocation the `Rc`s point to, so that arm is
`pl == pr` and the closure addresses are unused; the final arm compares
discriminants. -/
def Child.eq (l r : Child) (pl pr : Nat) : Bool :=
  match l, r with
  | .Text a, .Text b => a == b
  | .Fn _, .Fn _ => pl == pr
  | .Node a, .Node b => a == b
  | .Nodes a, .Nodes b => a == b
  | l, r => discrim l == discrim r

/-- Rendering of `Formatter::debug_tuple`: the tag alone when no field was
added (`f.debug_tuple("Fn").finish()` prints `Fn`), otherwise the tag
followed by the parenthesized, comma-separated fields. -/
def debug_tuple (tag : String) (fields : List String) : String :=
  match fields with
  | [] => tag
  | fs => tag ++ "(" ++ String.intercalate ", " fs ++ ")"

/-- Debug rendering of a list, for the `Nodes` arm (`Vec<Node>`'s `Debug`
renders the bracketed, comma-separated element debug strings). -/
def list_debug (fields : List String) : String :=
  "[" ++ String.intercalate ", " fields ++ "]"

/-- `impl Debug for Child`. `strD` and `nodeD` are the external `Debug`
formatters of `String` and `Node` (std / platform code, not part of this
core). `Null` prints bare; `Text`, `Node`, `Nodes` print their tag with
the payload's debug rendering; `Fn` prints `debug_tuple("Fn")` with no
field at all - only the tag, the closure payload is dropped. -/
def Child.fmt (strD : String → String) (nodeD : LeptosChild.Node → String) : Child → String
  | .Null => "Null"
  | .Text arg0 => debug_tuple "Text" [strD arg0]
  | .Fn _ => debug_tuple "Fn" []
  | .Node arg0 => debug_tuple "Node" [nodeD arg0]
  | .Nodes arg0 => debug_tuple "Nodes" [list_debug (arg0.map nodeD)]

/-- State-passing form of `PartialEq::eq`: the source body only reads the
two values through `&self` and `&other` (no `borrow_mut`, no closure
invocation), so as a heap transformer it returns the heap unchanged. -/
def Child.eq_st (l r : Child) (pl pr : Nat) (h : Heap) : Bool × Heap :=
  (Child.eq l r pl pr, h)

/-- State-passing form of `Debug::fmt`: the source body only reads `self`
(no `borrow_mut`, no closure invocation), so as a heap transformer it
returns the heap unchanged. -/
def Child.fmt_st (strD : String → String) (nodeD : LeptosChild.Node → String) (c : Child) (h : Heap) :
    String × Heap :=
  (Child.fmt strD nodeD c, h)

/-- Whether a `Child` is the `Fn` (reactive) variant. -/
def Child.is_fn : Child → Bool
  | .Fn _ => true
  | _ => false

/-- Source values whose conversion yields a terminal (non-`Fn`) `Child`:
no embedded `Fn` child, no callable reached by the `Option` recursion. -/
def fn_free : SValue → Bool
  | .child c => !c.is_fn
  | .fn _ => false
  | .opt (some v) => fn_free v
  | _ => true

/-- Source values whose conversion reaches the callable blanket impl (and
hence allocates): a callable, possibly under `Option` recursion. -/
def direct_fn : SValue → Bool
  | .fn _ => true
  | .opt (some v) => direct_fn v
  | _ => false

/-- A sample reactive context for the concrete scenarios below. -/
def cx0 : Scope := ⟨0⟩

/-- Behaviour of the callable `move || "hi".to_string()` from the spec's
end-to-end scenario: every call returns the owned string `"hi"`. -/
def hi_body : Nat → SValue := fun _ => SValue.str "hi"

/-- The heap holding the single cell the conversion of `hi_body` allocates,
after `k` invocations. -/
def hi_heap (k : Nat) : Heap := [⟨hi_body, cx0, k⟩]

/-- Behaviour of a stateful `FnMut` closure returning a different string on
each call: call `k` returns the decimal rendering of `k`. -/
def counter_body : Nat → SValue := fun k => SValue.str (toString k)

/-- The heap holding the single cell the conversion of `counter_body`
allocates, after `k` invocations. -/
def counter_heap (k : Nat) : Heap := [⟨counter_body, cx0, k⟩]

/-- Looking up the freshly appended cell: the address handed out by the
callable conversion (the old length) finds the new cell. -/
theorem get_append_length (l : Heap) (c : ClosureCell) :
    (l ++ [c]).get? l.length = some c := by
  induction l with
  | nil => rfl
  | cons x xs ih => exact ih

/-- Converting a source value that contains no callable and no embedded
`Fn` child leaves the heap unchanged and yields a `Child` that depends
only on the value. -/
theorem into_child_fn_free_eq :
    ∀ (v : SValue) (cx : Scope) (h : Heap), fn_free v = true →
      into_child v cx h = ((into_child v cx []).1, h)
  | .child c, _, h, _ => rfl
  | .unit, _, h, _ => rfl
  | .str _, _, h, _ => rfl
  | .prim _, _, h, _ => rfl
  | .nodes _, _, h, _ => rfl
  | .opt none, _, h, _ => rfl
  | .opt (some v), cx, h, hv => by
    have hv' : fn_free v = true := by simpa [fn_free] using hv
    have ih := into_child_fn_free_eq v cx h hv'
    simpa [into_child] using ih

/-- Converting a source value that contains no callable and no embedded
`Fn` child yields a terminal (non-`Fn`) `Child`. -/
theorem into_child_fn_free_not_fn :
    ∀ (v : SValue) (cx : Scope) (h : Heap), fn_free v = true →
      (into_child v cx h).1.is_fn = false
  | .child c, _, h, hv => by simpa [fn_free, into_child] using hv
  | .unit, _, h, _ => rfl
  | .str _, _, h, _ => rfl
  | .prim _, _, h, _ => rfl
  | .nodes _, _, h, _ => rfl
  | .opt none, _, h, _ => rfl
  | .opt (some v), cx, h, hv => by
    have hv' : fn_free v = true := by simpa [fn_free] using hv
    simpa [into_child] using into_child_fn_free_not_fn v cx h hv'

/-- Conversion rules that do not reach the callable blanket impl perform no
heap operation at all. -/
theorem into_child_no_fn_frame :
    ∀ (v : SValue) (cx : Scope) (h : Heap), direct_fn v = false →
      (into_child v cx h).2 = h
  | .child _, _, h, _ => rfl
  | .unit, _, h, _ => rfl
  | .str _, _, h, _ => rfl
  | .prim _, _, h, _ => rfl
  | .nodes _, _, h, _ => rfl
  | .opt none, _, h, _ => rfl
  | .opt (some v), cx, h, hv => by
    have hv' : direct_fn v = false := by simpa [direct_fn] using hv
    simpa [into_child] using into_child_no_fn_frame v cx h hv'
  | .fn _, _, h, hv => by simp [direct_fn] at hv

/-- The value produced by the invocation loop is never the `Fn` variant:
the loop only stops on a terminal value. -/
theorem resolve_chain_not_fn :
    ∀ (fuel a : Nat) (h : Heap) (v : Child) (h1 : Heap),
      resolve_chain fuel a h = some (v, h1) → v.is_fn = false
  | 0, _, _, _, _ => by simp [resolve_chain]
  | fuel + 1, a, h, v, h1 => by
    intro hres
    simp only [resolve_chain] at hres
    rcases hinv : invoke h a with ⟨c, h2⟩
    rw [hinv] at hres
    cases c with
    | Fn b => exact resolve_chain_not_fn fuel b h2 v h1 hres
    | Null =>
      simp only [Option.some.injEq, Prod.mk.injEq] at hres
      obtain ⟨rfl, rfl⟩ := hres
      rfl
    | Text s =>
      simp only [Option.some.injEq, Prod.mk.injEq] at hres
      obtain ⟨rfl, rfl⟩ := hres
      rfl
    | Node n =>
      simp only [Option.some.injEq, Prod.mk.injEq] at hres
      obtain ⟨rfl, rfl⟩ := hres
      rfl
    | Nodes ns =>
      simp only [Option.some.injEq, Prod.mk.injEq] at hres
      obtain ⟨rfl, rfl⟩ := hres
      rfl

/-- Serializing a terminal (non-`Fn`) `Child` returns its terminal string
and leaves the heap untouched, whatever the fuel. -/
theorem as_child_string_terminal (fuel : Nat) (c : Child) (h : Heap) (hc : c.is_fn = false) :
    as_child_string fuel c h = some (terminal_string c, h) := by
  cases c with
  | Fn a => simp [Child.is_fn] at hc
  | Null => rfl
  | Text s => rfl
  | Node n => rfl
  | Nodes ns => rfl

/-- C1: the claim says two `Reactive` children are equal exactly when they
share the underlying closure instance, so a `Reactive` child equals its
clone. The code's `Fn` arm is `std::ptr::eq(l0, r0)` on the two `&Rc`
references, which compares where the two compared values are stored, not
which closure they share: a child and its clone both hold closure cell 5
yet, stored at distinct addresses 0 and 1, compare `false` (first
conjunct), against the claim. Comparing a value with itself through one
address gives `true` (second conjunct), and independently constructed
closures in distinct values give `false` (third conjunct). -/
theorem C1_code_eval :
    Child.eq (Child.Fn 5) (Child.Fn 5) 0 1 = false ∧
    Child.eq (Child.Fn 5) (Child.Fn 5) 3 3 = true ∧
    Child.eq (Child.Fn 5) (Child.Fn 7) 0 1 = false := by
  exact ⟨rfl, rfl, rfl⟩

/-- C2: serializing a `Reactive` child invokes its closure once and, while
the produced value is again `Reactive`, keeps invoking the new closure
(first conjunct, the loop's step law); when the chain stops within the
fuel it stops on a non-`Reactive` value and the result is that terminal
value's serialization (second conjunct); converting the callable that
returns the string `"hi"` and serializing the resulting `Reactive` child
yields `"hi"` (third conjunct). -/
theorem C2_reactive_serialization :
    (∀ (fuel a : Nat) (h : Heap),
       as_child_string (fuel + 1) (Child.Fn a) h =
         match invoke h a with
         | (Child.Fn b, h1) => as_child_string fuel (Child.Fn b) h1
         | (v, h1) => some (terminal_string v, h1)) ∧
    (∀ (fuel a : Nat) (h : Heap) (v : Child) (h1 : Heap),
       resolve_chain fuel a h = some (v, h1) →
         v.is_fn = false ∧
         as_child_string fuel (Child.Fn a) h = some (terminal_string v, h1)) ∧
    (into_child (SValue.fn hi_body) cx0 [] = (Child.Fn 0, hi_heap 0) ∧
     as_child_string 1 (Child.Fn 0) (hi_heap 0) = some ("hi", hi_heap 1)) := by
  refine ⟨?_, ?_, rfl, rfl⟩
  · intro fuel a h
    rcases hinv : invoke h a with ⟨c, h2⟩
    cases c with
    | Fn b => simp [as_child_string, resolve_chain, hinv]
    | Null => simp [as_child_string, resolve_chain, hinv]
    | Text s => simp [as_child_string, resolve_chain, hinv]
    | Node n => simp [as_child_string, resolve_chain, hinv]
    | Nodes ns => simp [as_child_string, resolve_chain, hinv]
  · intro fuel a h v h1 hres
    refine ⟨resolve_chain_not_fn fuel a h v h1 hres, ?_⟩
    simp [as_child_string, hres]

/-- C2 witness: the resolution law applied to the concrete `"hi"` closure
chain, whose single invocation terminates at `Text "hi"`. -/
theorem C2_reactive_serialization_witness :
    (Child.Text "hi").is_fn = false ∧
    as_child_string 1 (Child.Fn 0) (hi_heap 0) =
      some (terminal_string (Child.Text "hi"), hi_heap 1) :=
  C2_reactive_serialization.2.1 1 0 (hi_heap 0) (Child.Text "hi") (hi_heap 1) rfl

/-- C3: converting a zero-argument callable yields the `Reactive` variant
holding a freshly allocated shared closure cell (first conjunct); each
invocation of that cell calls the wrapped function exactly once (the call
counter advances from `k` to `k + 1`) and returns the conversion of the
function's result under the captured reactive context (second conjunct);
hence, when the function's result converts to a terminal child, invoking
the closure once and serializing the result equals converting the
function's result directly and serializing that (third conjunct). -/
theorem C3_callable_conversion :
    (∀ (body : Nat → SValue) (cx : Scope) (h : Heap),
       into_child (SValue.fn body) cx h = (Child.Fn h.length, h ++ [⟨body, cx, 0⟩])) ∧
    (∀ (a k : Nat) (body : Nat → SValue) (cx : Scope) (hh : Heap),
       hh.get? a = some ⟨body, cx, k⟩ →
         invoke hh a = into_child (body k) cx (hh.set a ⟨body, cx, k + 1⟩)) ∧
    (∀ (body : Nat → SValue) (cx : Scope) (h : Heap) (fuel : Nat),
       fn_free (body 0) = true →
         (as_child_string (fuel + 1) (Child.Fn h.length) (h ++ [⟨body, cx, 0⟩])).map Prod.fst =
           (as_child_string fuel ((into_child (body 0) cx h).1) h).map Prod.fst) := by
  refine ⟨fun body cx h => rfl, ?_, ?_⟩
  · intro a k body cx hh hcell
    unfold invoke
    rw [hcell]
  · intro body cx h fuel hv
    have hterm := into_child_fn_free_not_fn (body 0) cx [] hv
    have hbump := into_child_fn_free_eq (body 0) cx
      ((h ++ [({ body := body, cx := cx, calls := 0 } : ClosureCell)]).set h.length
        { body := body, cx := cx, calls := 1 }) hv
    have hbase := into_child_fn_free_eq (body 0) cx h hv
    have hres : resolve_chain (fuel + 1) h.length
        (h ++ [({ body := body, cx := cx, calls := 0 } : ClosureCell)]) =
        some ((into_child (body 0) cx []).1,
          (h ++ [({ body := body, cx := cx, calls := 0 } : ClosureCell)]).set h.length
            { body := body, cx := cx, calls := 1 }) := by
      have hinv : invoke (h ++ [({ body := body, cx := cx, calls := 0 } : ClosureCell)]) h.length =
          ((into_child (body 0) cx []).1,
            (h ++ [({ body := body, cx := cx, calls := 0 } : ClosureCell)]).set h.length
              { body := body, cx := cx, calls := 1 }) := by
        unfold invoke
        rw [get_append_length]
        exact hbump
      rcases hc : (into_child (body 0) cx []).1 with _ | s | a | n | ns
      · simp [resolve_chain, hinv, hc]
      · simp [resolve_chain, hinv, hc]
      · rw [hc] at hterm; simp [Child.is_fn] at hterm
      · simp [resolve_chain, hinv, hc]
      · simp [resolve_chain, hinv, hc]
    rw [hbase, as_child_string_terminal fuel ((into_child (body 0) cx []).1) h hterm]
    simp [as_child_string, hres]

/-- C3 witness: the conversion, invocation and serialization laws applied
to the concrete counter closure at call 0. -/
theorem C3_callable_conversion_witness :
    invoke (counter_heap 0) 0 =
      into_child (counter_body 0) cx0 ((counter_heap 0).set 0 ⟨counter_body, cx0, 1⟩) ∧
    (as_child_string 1 (Child.Fn 0) ([] ++ [⟨counter_body, cx0, 0⟩])).map Prod.fst =
      (as_child_string 0 ((into_child (counter_body 0) cx0 []).1) []).map Prod.fst :=
  ⟨C3_callable_conversion.2.1 0 0 counter_body cx0 (counter_heap 0) rfl,
   C3_callable_conversion.2.2 counter_body cx0 [] 0 rfl⟩

/-- C4: a value of one of the `child_type!` primitive types (borrowed
strings, every integer width, both float widths, `char`, `bool`), whose
canonical string representation is `s`, converts to `Text s` with no heap
effect, and serializing that child returns `s` itself - so
`convert(v).serialize() == v.to_string()` (first conjunct). Concretely,
the integer `42` converts to `Text "42"` which serializes to `"42"`, and
likewise `true`, `-7` and the character `x` (second conjunct). -/
theorem C4_primitive_text :
    (∀ (s : String) (cx : Scope) (h : Heap) (fuel : Nat),
       into_child (SValue.prim s) cx h = (Child.Text s, h) ∧
       as_child_string fuel (Child.Text s) h = some (s, h)) ∧
    (∀ (cx : Scope) (h : Heap),
       (into_child (SValue.prim (toString (42 : Nat))) cx h).1 = Child.Text "42" ∧
       (as_child_string 0 (Child.Text (toString (42 : Nat))) h).map Prod.fst = some "42" ∧
       (into_child (SValue.prim (toString true)) cx h).1 = Child.Text "true" ∧
       (into_child (SValue.prim (toString (-7 : Int))) cx h).1 = Child.Text "-7" ∧
       (into_child (SValue.prim (toString 'x')) cx h).1 = Child.Text "x") := by
  exact ⟨fun s cx h fuel => ⟨rfl, rfl⟩, fun cx h => ⟨rfl, rfl, rfl, rfl, rfl⟩⟩

/-- C5: converting `Some x` is converting `x`, converting `None` is the
`Null` child, the rule composes recursively so `Some (None)` converts to
`Null`, and converting `Some x` and serializing gives the same outcome as
converting `x` and serializing, for every `x`. -/
theorem C5_option_conversion :
    (∀ (v : SValue) (cx : Scope) (h : Heap),
       into_child (SValue.opt (some v)) cx h = into_child v cx h) ∧
    (∀ (cx : Scope) (h : Heap), into_child (SValue.opt none) cx h = (Child.Null, h)) ∧
    (∀ (cx : Scope) (h : Heap),
       into_child (SValue.opt (some (SValue.opt none))) cx h = (Child.Null, h)) ∧
    (∀ (v : SValue) (cx : Scope) (h : Heap) (fuel : Nat),
       as_child_string fuel (into_child (SValue.opt (some v)) cx h).1
           (into_child (SValue.opt (some v)) cx h).2 =
         as_child_string fuel (into_child v cx h).1 (into_child v cx h).2) := by
  exact ⟨fun v cx h => rfl, fun cx h => rfl, fun cx h => rfl, fun v cx h fuel => rfl⟩

/-- C6: serialization of the terminal variants: `Null` gives the empty
string, `Text s` gives `s` verbatim, `Nodes ns` gives the concatenation
of each node's own serialization in list order with no separator, and for
nodes serializing to `"a"`, `"b"`, `"c"` the result is `"abc"`; the heap
is untouched in each case. -/
theorem C6_terminal_serialization :
    (∀ (h : Heap) (fuel : Nat), as_child_string fuel Child.Null h = some ("", h)) ∧
    (∀ (s : String) (h : Heap) (fuel : Nat),
       as_child_string fuel (Child.Text s) h = some (s, h)) ∧
    (∀ (ns : List Node) (h : Heap) (fuel : Nat),
       as_child_string fuel (Child.Nodes ns) h = some (String.join (ns.map Node.str), h)) ∧
    (∀ (h : Heap) (fuel : Nat),
       as_child_string fuel (Child.Nodes [⟨"a"⟩, ⟨"b"⟩, ⟨"c"⟩]) h = some ("abc", h)) := by
  refine ⟨fun h fuel => rfl, fun s h fuel => rfl, fun ns h fuel => ?_, fun h fuel => rfl⟩
  simp [as_child_string, terminal_string, String.join]

/-- C7: equality on the data variants is structural and cross-variant
comparisons are false: `Text` children compare by string equality,
`Node` and `Nodes` children by value equality of their payloads, `Null`
equals exactly `Null`, any two children of different variants (which
excludes the `Fn`-with-`Fn` identity arm) compare false, and the two
independently constructed `Text "5"` children obtained from the string
`"5"` and from the integer `5` compare equal. -/
theorem C7_structural_equality :
    (∀ (a b : String) (pl pr : Nat),
       Child.eq (Child.Text a) (Child.Text b) pl pr = (a == b)) ∧
    (∀ (a b : Node) (pl pr : Nat),
       Child.eq (Child.Node a) (Child.Node b) pl pr = (a == b)) ∧
    (∀ (a b : List Node) (pl pr : Nat),
       Child.eq (Child.Nodes a) (Child.Nodes b) pl pr = (a == b)) ∧
    (∀ (pl pr : Nat), Child.eq Child.Null Child.Null pl pr = true) ∧
    (∀ (l r : Child) (pl pr : Nat), discrim l ≠ discrim r → Child.eq l r pl pr = false) ∧
    (∀ (cx : Scope) (h : Heap) (pl pr : Nat),
       Child.eq (into_child (SValue.str "5") cx h).1
         (into_child (SValue.prim (toString (5 : Nat))) cx h).1 pl pr = true) := by
  refine ⟨fun a b pl pr => rfl, fun a b pl pr => rfl, fun a b pl pr => rfl,
    fun pl pr => rfl, ?_, fun cx h pl pr => rfl⟩
  intro l r pl pr hne
  cases l <;> cases r <;> simp [Child.eq, discrim] at hne ⊢

/-- C7 witness: the cross-variant law applied to `Null` and a `Text`
child, whose discriminants differ. -/
theorem C7_structural_equality_witness :
    Child.eq Child.Null (Child.Text "x") 0 0 = false :=
  C7_structural_equality.2.2.2.2.1 Child.Null (Child.Text "x") 0 0 (by decide)

/-- C8: converting a callable does not invoke it - the allocated shared
cell stores the untouched behaviour with call counter 0, and the heap
grows by exactly that one cell (first conjunct); every conversion that
does not reach the callable rule leaves the heap unchanged, so no other
rule has a side effect (second conjunct). -/
theorem C8_conversion_side_effects :
    (∀ (body : Nat → SValue) (cx : Scope) (h : Heap),
       into_child (SValue.fn body) cx h = (Child.Fn h.length, h ++ [⟨body, cx, 0⟩])) ∧
    (∀ (v : SValue) (cx : Scope) (h : Heap),
       direct_fn v = false → (into_child v cx h).2 = h) := by
  exact ⟨fun body cx h => rfl, fun v cx h hv => into_child_no_fn_frame v cx h hv⟩

/-- C8 witness: the frame law applied to the owned-string conversion,
which reaches no callable rule. -/
theorem C8_conversion_side_effects_witness :
    (into_child (SValue.str "x") cx0 (counter_heap 0)).2 = counter_heap 0 :=
  C8_conversion_side_effects.2 (SValue.str "x") cx0 (counter_heap 0) rfl

/-- C9: equality and debug formatting never invoke a closure and change
no state: as heap transformers both return the heap (hence every closure
cell) unchanged, their results do not depend on the heap at all, and the
debug rendering of the `Fn` variant is the bare tag `"Fn"` with no
payload, whatever the payload address and the external formatters. -/
theorem C9_eq_fmt_pure :
    (∀ (l r : Child) (pl pr : Nat) (h h2 : Heap),
       (Child.eq_st l r pl pr h).2 = h ∧
       (Child.eq_st l r pl pr h).1 = (Child.eq_st l r pl pr h2).1) ∧
    (∀ (strD : String → String) (nodeD : LeptosChild.Node → String) (c : Child) (h h2 : Heap),
       (Child.fmt_st strD nodeD c h).2 = h ∧
       (Child.fmt_st strD nodeD c h).1 = (Child.fmt_st strD nodeD c h2).1) ∧
    (∀ (strD : String → String) (nodeD : LeptosChild.Node → String) (a : Nat),
       Child.fmt strD nodeD (Child.Fn a) = "Fn") := by
  exact ⟨fun l r pl pr h h2 => ⟨rfl, rfl⟩, fun strD nodeD c h h2 => ⟨rfl, rfl⟩,
    fun strD nodeD a => rfl⟩

/-- C10: serializing a child that is not the `Reactive` variant is pure
and deterministic - the result is its terminal string whatever the heap
or fuel, and the heap comes back unchanged, so any number of repeated
calls return identical strings (first conjunct); this fails for a
`Reactive` child with a stateful closure: the counter closure serializes
to `"0"` on the first call and to `"1"` on the second (second conjunct). -/
theorem C10_serialization_deterministic :
    (∀ (c : Child) (h h2 : Heap) (fuel fuel2 : Nat), c.is_fn = false →
       as_child_string fuel c h = some (terminal_string c, h) ∧
       (as_child_string fuel c h).map Prod.fst = (as_child_string fuel2 c h2).map Prod.fst) ∧
    (as_child_string 1 (Child.Fn 0) (counter_heap 0) = some ("0", counter_heap 1) ∧
     as_child_string 1 (Child.Fn 0) (counter_heap 1) = some ("1", counter_heap 2) ∧
     ("0" : String) ≠ "1") := by
  refine ⟨fun c h h2 fuel fuel2 hc => ?_, rfl, rfl, by decide⟩
  rw [as_child_string_terminal fuel c h hc, as_child_string_terminal fuel2 c h2 hc]
  exact ⟨rfl, rfl⟩

/-- C10 witness: the determinism law applied to a `Text` child across two
different heaps and fuel amounts. -/
theorem C10_serialization_deterministic_witness :
    as_child_string 0 (Child.Text "a") (counter_heap 0) =
      some (terminal_string (Child.Text "a"), counter_heap 0) ∧
    (as_child_string 0 (Child.Text "a") (counter_heap 0)).map Prod.fst =
      (as_child_string 5 (Child.Text "a") []).map Prod.fst :=
  C10_serialization_deterministic.1 (Child.Text "a") (counter_heap 0) [] 0 5 rfl

end LeptosChild
